import Mathlib

/-!
Verification of the analysis orchestrator of `llm-market-bench`
(`apps/engine/analyze.py` and its collaborators) against its
natural-language specification.

The Python source is shallowly embedded:
* a raw input chunk (a Python dict that may lack keys) becomes `RawChunk`
  with `Option String` fields;
* the pydantic model `DecisionObject` becomes a plain structure, with the
  pydantic construction-time validation embedded as `mkDecisionObject`
  (returning `none` where pydantic would raise a `ValidationError`) and
  pydantic attribute assignment embedded as `pydanticSetattr` (returning
  `Except.error` where pydantic would raise for an unknown field);
* the collaborators are parameters: `retrieve` stands for
  `memory.store.retrieve_context_batch` (which catches internally and never
  raises, so it is a total function), and `run i` stands for the outcome of
  the i-th backend task as captured by `asyncio.gather(..., return_exceptions=True)`;
* Python statements that can raise are sequenced in the `Except String` monad,
  so "the function never raises" is the statement that `analyzeChunksE`
  always returns `Except.ok`;
* the externally observable calls (the single context-retrieval call and the
  per-backend tasks) are recorded in a `Transcript` so that call-count
  claims are statable.
-/

/-- One raw input chunk: the Python dict passed to `analyze_chunks`.
`none` models a missing key (or a `None` value); `some s` a present string
value.  Mirrors the `c.get("source_id") and c.get("content")` accesses in
`apps/engine/analyze.py`. -/
structure RawChunk where
  source_id : Option String
  content : Option String
deriving DecidableEq

/-- Python truthiness of `dict.get(key)` for string values: `None` and the
empty string are falsy. -/
def truthy : Option String → Bool
  | none => false
  | some s => decide (s ≠ "")

/-- The filter predicate of `analyze.py` line 47-50:
`c.get("source_id") and c.get("content")`. -/
def isValidChunk (c : RawChunk) : Bool :=
  truthy c.source_id && truthy c.content

/-- The comprehension
`valid_chunks = [c for c in chunks if c.get("source_id") and c.get("content")]`
(`analyze.py` lines 47-50). -/
def validChunks (chunks : List RawChunk) : List RawChunk :=
  chunks.filter isValidChunk

/-- The batch-level diagnostic of `analyze.py` lines 52-53: one warning
recording the skip count when any chunk was filtered, none otherwise. -/
def skipWarnings (chunks : List RawChunk) : List String :=
  if (validChunks chunks).length < chunks.length then
    ["Skipped " ++ toString (chunks.length - (validChunks chunks).length)
      ++ " malformed chunks."]
  else []

/-- The chunk-validation step as a unit (spec component `ChunkValidator`,
`analyze.py` lines 46-53): the surviving chunks together with the emitted
diagnostics.  A total function: this step cannot raise. -/
def chunkValidate (chunks : List RawChunk) : List RawChunk × List String :=
  (validChunks chunks, skipWarnings chunks)

/-- Python `str.upper()` as used by the `upper_case_ticker` validator in
`apps/engine/core/models.py` (ASCII case mapping, which is what ticker
symbols exercise). -/
def pyUpper (s : String) : String :=
  ⟨s.data.map Char.toUpper⟩

/-- Modelled from the spec: the schema-validated decision unit.  The fields
`signal`, `confidence`, `reasoning`, `ticker`, `source_id` are taken
directly from `apps/engine/core/models.py`.  The attribution fields
`model_provider` and `model_name` are part of the spec's `DecisionObject`
schema and are assigned by `analyze.py` (lines 102-103), read by `main.py`
and constructed in the tests, but their field declarations are missing from
the copy of `models.py` given here; they are modelled from the spec as
optional string fields (`none` until the reducer stamps them). -/
structure DecisionObject where
  signal : String
  confidence : Int
  reasoning : String
  ticker : String
  source_id : String
  model_provider : Option String
  model_name : Option String
deriving DecidableEq

/-- Pydantic construction of a `DecisionObject`
(`apps/engine/core/models.py`): `signal` must be one of the literals
`BUY`/`SELL`/`HOLD`, `confidence` must lie in `[0, 100]`, and the
`upper_case_ticker` field validator upper-cases the ticker.  Returns `none`
where pydantic raises a `ValidationError`.  The optional attribution
arguments model the spec's optional `model_provider`/`model_name` fields. -/
def mkDecisionObject (signal : String) (confidence : Int)
    (reasoning ticker source_id : String)
    (mp : Option String := none) (mn : Option String := none) :
    Option DecisionObject :=
  if (signal = "BUY" ∨ signal = "SELL" ∨ signal = "HOLD")
      ∧ 0 ≤ confidence ∧ confidence ≤ 100 then
    some ⟨signal, confidence, reasoning, pyUpper ticker, source_id, mp, mn⟩
  else
    none

/-- A `DecisionObject` value that can actually exist at runtime: pydantic
only hands out instances that passed construction-time validation. -/
def constructedDecision (d : DecisionObject) : Prop :=
  ∃ s c r t sid mp mn, mkDecisionObject s c r t sid mp mn = some d

/-- Pydantic attribute assignment on a `DecisionObject`
(`decision.model_provider = ...` in `analyze.py` lines 102-103): assignment
to a declared field succeeds, assignment to an unknown field raises. -/
def pydanticSetattr (d : DecisionObject) (field v : String) :
    Except String DecisionObject :=
  if field = "model_provider" then .ok { d with model_provider := some v }
  else if field = "model_name" then .ok { d with model_name := some v }
  else .error ("DecisionObject has no field " ++ field)

/-- One entry of the `MODELS` registry in `apps/engine/analyze.py`
(a `provider`/`model` pair; spec component `ProviderRegistry`). -/
structure BackendConfig where
  provider : String
  model : String
deriving DecidableEq

/-- Python `os.getenv(key, default)` as used in `apps/engine/core/config.py`:
the environment value when the variable is set, the default otherwise. -/
def getenvD (env : String → Option String) (key dflt : String) : String :=
  match env key with
  | some v => v
  | none => dflt

/-- The `MODELS` registry of `apps/engine/analyze.py` lines 23-28, with the
model identifiers resolved from the environment as in
`apps/engine/core/config.py` lines 36-39. -/
def MODELS (env : String → Option String) : List BackendConfig :=
  [⟨"openai", getenvD env "OPENAI_MODEL" "gpt-4-turbo-preview"⟩,
   ⟨"anthropic", getenvD env "ANTHROPIC_MODEL" "claude-3-5-sonnet-20240620"⟩,
   ⟨"gemini", getenvD env "GEMINI_MODEL" "gemini-1.5-pro"⟩,
   ⟨"deepseek", getenvD env "DEEPSEEK_MODEL" "deepseek-chat"⟩]

/-- One element of a list returned by a backend task: either an actual
`DecisionObject` instance, or anything else (the reducer's
`isinstance(decision, DecisionObject)` check, `analyze.py` line 100). -/
inductive BackendItem where
  | decision (d : DecisionObject)
  | other
deriving DecidableEq

/-- The outcome of one backend task as seen after
`asyncio.gather(*tasks, return_exceptions=True)` (`analyze.py` line 87):
an exception object, a list of items, or some other non-list value
(silently ignored by the reducer, which has no `else` branch). -/
inductive BackendOutcome where
  | exn
  | nonList
  | items (xs : List BackendItem)
deriving DecidableEq

/-- The arguments of one created backend task
(`llm.analyze_with_provider(provider=..., model_name=..., chunks=..., context=...)`,
`analyze.py` lines 74-79). -/
structure BackendTask where
  provider : String
  model : String
  chunks : List RawChunk
  context : String
deriving DecidableEq

/-- The externally observable calls of one `analyze_chunks` invocation:
the argument lists of the context-retrieval calls issued, the backend tasks
created, and the validation-phase diagnostics emitted. -/
structure Transcript where
  retrievalCalls : List (List String)
  tasks : List BackendTask
  validationWarnings : List String
deriving DecidableEq

/-- Sequencing of fallible Python statements: propagate the exception,
otherwise continue (the `Except` bind, spelled out for easy rewriting). -/
def pyBind (e : Except String α) (f : α → Except String β) : Except String β :=
  match e with
  | .error msg => .error msg
  | .ok a => f a

/-- Python `chunk[key]` on a raw chunk dict: the value when present,
a `KeyError` otherwise. -/
def getItem (c : RawChunk) (key : String) : Except String String :=
  if key = "source_id" then
    match c.source_id with
    | some v => .ok v
    | none => .error "KeyError: source_id"
  else if key = "content" then
    match c.content with
    | some v => .ok v
    | none => .error "KeyError: content"
  else .error ("KeyError: " ++ key)

/-- The comprehension `queries = [chunk["content"] for chunk in valid_chunks]`
(`analyze.py` line 59): left-to-right, propagating the first `KeyError`. -/
def buildQueries : List RawChunk → Except String (List String)
  | [] => .ok []
  | c :: rest =>
    pyBind (getItem c "content") fun q =>
      pyBind (buildQueries rest) fun qs => .ok (q :: qs)

/-- The `content` values carried by a list of chunks (the pure value
`buildQueries` produces when every chunk has a `content` key). -/
def chunkContents (cs : List RawChunk) : List String :=
  cs.filterMap RawChunk.content

/-- Python `sep.join(parts)` (`"\n".join(...)`, `analyze.py` line 63). -/
def pyJoin (sep : String) : List String → String
  | [] => ""
  | [s] => s
  | s :: rest => s ++ sep ++ pyJoin sep rest

/-- The statement `aggregated_context = "\n".join([c for c in context_results if c])`
(`analyze.py` line 63): newline-join of the truthy (non-empty) entries. -/
def aggregateContext (contextResults : List String) : String :=
  pyJoin "\n" (contextResults.filter (fun c => decide (c ≠ "")))

/-- Specification-side description of the context aggregation, written from
the spec's words: walk the entries in their original order, skip the empty
ones, and join the rest with newlines. -/
def joinNonEmptySpec : List String → String
  | [] => ""
  | s :: rest =>
    if s = "" then joinNonEmptySpec rest
    else
      let r := joinNonEmptySpec rest
      if r = "" then s else s ++ "\n" ++ r

/-- The reducer's stamping of one decision (`analyze.py` lines 102-103),
in the `Except` monad because pydantic attribute assignment can raise. -/
def stampDecisionE (cfg : BackendConfig) (d : DecisionObject) :
    Except String DecisionObject :=
  pyBind (pydanticSetattr d "model_provider" cfg.provider) fun d1 =>
    pydanticSetattr d1 "model_name" cfg.model

/-- The pure value `stampDecisionE` computes: the decision with the
registry entry's provider and model written into the attribution fields. -/
def stampConfig (cfg : BackendConfig) (d : DecisionObject) : DecisionObject :=
  { d with model_provider := some cfg.provider, model_name := some cfg.model }

/-- The reducer's inner loop over one backend's returned items
(`analyze.py` lines 99-106): `DecisionObject` instances are stamped and
appended in order, anything else is logged and dropped. -/
def reduceItems (cfg : BackendConfig) : List BackendItem →
    Except String (List DecisionObject)
  | [] => .ok []
  | .other :: rest => reduceItems cfg rest
  | .decision d :: rest =>
    pyBind (stampDecisionE cfg d) fun d1 =>
      pyBind (reduceItems cfg rest) fun ds => .ok (d1 :: ds)

/-- Handling of a single gathered result (`analyze.py` lines 95-106): an
exception is logged and skipped, a list is reduced item by item, anything
else falls through both `isinstance` branches and is skipped. -/
def reduceOne (cfg : BackendConfig) : BackendOutcome →
    Except String (List DecisionObject)
  | .exn => .ok []
  | .nonList => .ok []
  | .items xs => reduceItems cfg xs

/-- The reducer's outer loop (`analyze.py` lines 92-106): per-backend
outcomes are processed in registry order, each backend's contribution
appended after the previous ones. -/
def reduceOutcomes : List (BackendConfig × BackendOutcome) →
    Except String (List DecisionObject)
  | [] => .ok []
  | (cfg, out) :: rest =>
    pyBind (reduceOne cfg out) fun ds =>
      pyBind (reduceOutcomes rest) fun rest1 => .ok (ds ++ rest1)

/-- Specification-side description of one backend's contribution, written
from the spec's words: a failed or malformed outcome contributes zero
decisions; a list outcome contributes its `DecisionObject` items, in the
order the backend returned them, stamped with that backend's identity. -/
def keptDecisions (cfg : BackendConfig) : BackendOutcome → List DecisionObject
  | .exn => []
  | .nonList => []
  | .items xs =>
    xs.filterMap (fun it =>
      match it with
      | .decision d => some (stampConfig cfg d)
      | .other => none)

/-- Specification-side description of the reduced output, written from the
spec's words: the concatenation, in registry order, of every backend's kept
decisions. -/
def registryOrderedOutput : List (BackendConfig × BackendOutcome) →
    List DecisionObject
  | [] => []
  | p :: rest => keptDecisions p.1 p.2 ++ registryOrderedOutput rest

/-- The public entry point `analyze_chunks` (`apps/engine/analyze.py`),
sequenced in the `Except String` monad: every Python statement that can
raise is modelled by a fallible step, so `Except.ok` means the call
returned normally.  `env` resolves model identifiers (`core/config.py`),
`retrieve` is `memory.store.retrieve_context_batch` (total: it catches
internally), and `run i` is the gathered outcome of the i-th backend task.
Returns the decision list together with the call `Transcript`. -/
def analyzeChunksE (env : String → Option String) (chunks : List RawChunk)
    (retrieve : List String → List String) (run : Nat → BackendOutcome) :
    Except String (List DecisionObject × Transcript) :=
  if chunks = [] then .ok ([], ⟨[], [], []⟩)
  else if validChunks chunks = [] then .ok ([], ⟨[], [], skipWarnings chunks⟩)
  else
    pyBind (buildQueries (validChunks chunks)) fun queries =>
      pyBind (reduceOutcomes
          ((MODELS env).zip ((List.range (MODELS env).length).map run))) fun ds =>
        .ok (ds,
          ⟨if queries = [] then [] else [queries],
           (MODELS env).map (fun cfg =>
             { provider := cfg.provider, model := cfg.model,
               chunks := validChunks chunks,
               context := if queries = [] then ""
                 else aggregateContext (retrieve queries) : BackendTask }),
           skipWarnings chunks⟩)

/-- The queries an `analyze_chunks` invocation sends to context retrieval. -/
def batchQueries (chunks : List RawChunk) : List String :=
  chunkContents (validChunks chunks)

/-- The aggregated context an `analyze_chunks` invocation shares across its
backend tasks. -/
def batchContext (chunks : List RawChunk)
    (retrieve : List String → List String) : String :=
  aggregateContext (retrieve (batchQueries chunks))

/-- The backend tasks an `analyze_chunks` invocation creates. -/
def batchTasks (env : String → Option String) (chunks : List RawChunk)
    (retrieve : List String → List String) : List BackendTask :=
  (MODELS env).map (fun cfg =>
    { provider := cfg.provider, model := cfg.model,
      chunks := validChunks chunks, context := batchContext chunks retrieve })

/-- The per-backend outcome list, in registry order. -/
def batchResults (env : String → Option String) (run : Nat → BackendOutcome) :
    List BackendOutcome :=
  (List.range (MODELS env).length).map run

/-- The registry entry at a given index (`MODELS[i]`, `analyze.py` line 93;
total because the reducer only indexes within bounds). -/
def cfgAt (env : String → Option String) (i : Nat) : BackendConfig :=
  (MODELS env).getD i ⟨"", ""⟩

/-! Concrete fixtures used to instantiate the theorems on closed inputs
(mirroring the repository's own test scenarios). -/

/-- An environment with no variables set: every model id is its default. -/
def envDefault : String → Option String := fun _ => none

/-- A context-retrieval collaborator echoing its queries. -/
def retrieveId : List String → List String := fun qs => qs

/-- A well-formed chunk, as in the repository's resilience test. -/
def demoChunk : RawChunk := ⟨some "c1", some "Apple up"⟩

/-- A malformed chunk (missing `source_id`). -/
def badChunk : RawChunk := ⟨none, some "Apple up"⟩

/-- A decision as a backend would return it (attribution not yet stamped). -/
def demoDecision : DecisionObject := ⟨"BUY", 90, "Success", "AAPL", "c1", none, none⟩

/-- Every backend task raises. -/
def runAllExn : Nat → BackendOutcome := fun _ => .exn

/-- Every backend returns the single demo decision. -/
def runOneEach : Nat → BackendOutcome := fun _ => .items [.decision demoDecision]

/-- The first registered backend raises, the rest return one decision each
(the spec's Scenario A). -/
def runFirstFails : Nat → BackendOutcome := fun i =>
  if i = 0 then .exn else .items [.decision demoDecision]

/-! Helper lemmas (shared; none of them is a claim's theorem). -/

theorem pyBind_ok (a : α) (f : α → Except String β) : pyBind (.ok a) f = f a := rfl

theorem filter_length_add (p : α → Bool) (l : List α) :
    (l.filter p).length + (l.filter (fun a => !p a)).length = l.length := by
  induction l with
  | nil => rfl
  | cons a l ih =>
    by_cases h : p a <;> simp [List.filter_cons, h] <;> omega

theorem mem_validChunks {c : RawChunk} {chunks : List RawChunk}
    (h : c ∈ validChunks chunks) : isValidChunk c = true :=
  (List.mem_filter.mp h).2

theorem content_of_valid {c : RawChunk} (h : isValidChunk c = true) :
    ∃ v, c.content = some v := by
  cases hc : c.content with
  | some v => exact ⟨v, rfl⟩
  | none => rw [isValidChunk, hc] at h; simp [truthy] at h

theorem getItem_content {c : RawChunk} {v : String} (h : c.content = some v) :
    getItem c "content" = .ok v := by
  simp [getItem, h]

theorem buildQueries_of_valid : ∀ (cs : List RawChunk),
    (∀ c ∈ cs, isValidChunk c = true) → buildQueries cs = .ok (chunkContents cs)
  | [], _ => rfl
  | c :: rest, h => by
    obtain ⟨v, hv⟩ := content_of_valid (h c (List.mem_cons_self c rest))
    rw [buildQueries, getItem_content hv, pyBind_ok,
      buildQueries_of_valid rest (fun x hx => h x (List.mem_cons_of_mem _ hx)),
      pyBind_ok]
    simp [chunkContents, List.filterMap_cons, hv]

theorem chunkContents_length_of_valid : ∀ (cs : List RawChunk),
    (∀ c ∈ cs, isValidChunk c = true) → (chunkContents cs).length = cs.length
  | [], _ => rfl
  | c :: rest, h => by
    obtain ⟨v, hv⟩ := content_of_valid (h c (List.mem_cons_self c rest))
    have ih := chunkContents_length_of_valid rest
      (fun x hx => h x (List.mem_cons_of_mem _ hx))
    simp [chunkContents, List.filterMap_cons, hv]
    simpa [chunkContents] using ih

theorem pydanticSetattr_provider (d : DecisionObject) (v : String) :
    pydanticSetattr d "model_provider" v = .ok { d with model_provider := some v } := by
  simp [pydanticSetattr]

theorem pydanticSetattr_name (d : DecisionObject) (v : String) :
    pydanticSetattr d "model_name" v = .ok { d with model_name := some v } := by
  simp [pydanticSetattr]

theorem stampDecisionE_ok (cfg : BackendConfig) (d : DecisionObject) :
    stampDecisionE cfg d = .ok (stampConfig cfg d) := by
  simp only [stampDecisionE, pydanticSetattr_provider, pyBind_ok, pydanticSetattr_name]
  rfl

theorem reduceItems_ok (cfg : BackendConfig) : ∀ (xs : List BackendItem),
    reduceItems cfg xs = .ok (keptDecisions cfg (.items xs))
  | [] => rfl
  | .other :: rest => by
    simp only [reduceItems, reduceItems_ok cfg rest, keptDecisions, List.filterMap_cons]
  | .decision d :: rest => by
    simp only [reduceItems, stampDecisionE_ok, pyBind_ok, reduceItems_ok cfg rest,
      keptDecisions, List.filterMap_cons]

theorem reduceOne_ok (cfg : BackendConfig) (out : BackendOutcome) :
    reduceOne cfg out = .ok (keptDecisions cfg out) := by
  cases out with
  | exn => rfl
  | nonList => rfl
  | items xs => exact reduceItems_ok cfg xs

theorem reduceOutcomes_ok : ∀ (ps : List (BackendConfig × BackendOutcome)),
    reduceOutcomes ps = .ok (registryOrderedOutput ps)
  | [] => rfl
  | (cfg, out) :: rest => by
    simp only [reduceOutcomes, reduceOne_ok, pyBind_ok, reduceOutcomes_ok rest,
      registryOrderedOutput]

theorem analyzeChunksE_run (env : String → Option String) (chunks : List RawChunk)
    (retrieve : List String → List String) (run : Nat → BackendOutcome)
    (hv : validChunks chunks ≠ []) :
    analyzeChunksE env chunks retrieve run =
      .ok (registryOrderedOutput ((MODELS env).zip (batchResults env run)),
        ⟨[batchQueries chunks], batchTasks env chunks retrieve, skipWarnings chunks⟩) := by
  have hc : chunks ≠ [] := fun h => hv (by rw [h]; rfl)
  have hvall : ∀ c ∈ validChunks chunks, isValidChunk c = true :=
    fun c hc2 => mem_validChunks hc2
  have hq : buildQueries (validChunks chunks) = .ok (batchQueries chunks) :=
    buildQueries_of_valid _ hvall
  have hqne : batchQueries chunks ≠ [] := by
    intro h
    apply hv
    have hlen := chunkContents_length_of_valid _ hvall
    unfold batchQueries at h
    rw [h] at hlen
    exact List.length_eq_zero.mp hlen.symm
  unfold analyzeChunksE
  rw [if_neg hc, if_neg hv, hq]
  simp only [pyBind_ok, reduceOutcomes_ok, if_neg hqne]
  rfl

theorem mem_registryOrderedOutput {d : DecisionObject} :
    ∀ {ps : List (BackendConfig × BackendOutcome)},
    d ∈ registryOrderedOutput ps ↔ ∃ p, p ∈ ps ∧ d ∈ keptDecisions p.1 p.2 := by
  intro ps
  induction ps with
  | nil => simp [registryOrderedOutput]
  | cons p rest ih =>
    simp only [registryOrderedOutput, List.mem_append, ih, List.mem_cons]
    constructor
    · rintro (hd | ⟨q, hq, hdq⟩)
      · exact ⟨p, Or.inl rfl, hd⟩
      · exact ⟨q, Or.inr hq, hdq⟩
    · rintro ⟨q, hq | hq, hdq⟩
      · subst hq; exact Or.inl hdq
      · exact Or.inr ⟨q, hq, hdq⟩

theorem mem_keptDecisions {cfg : BackendConfig} {out : BackendOutcome}
    {d : DecisionObject} (h : d ∈ keptDecisions cfg out) :
    ∃ xs d0, out = .items xs ∧ BackendItem.decision d0 ∈ xs ∧ d = stampConfig cfg d0 := by
  cases out with
  | exn => simp [keptDecisions] at h
  | nonList => simp [keptDecisions] at h
  | items xs =>
    rw [keptDecisions] at h
    obtain ⟨it, hit, hsome⟩ := List.mem_filterMap.mp h
    cases it with
    | other => simp at hsome
    | decision d0 => exact ⟨xs, d0, rfl, hit, (Option.some_inj.mp hsome).symm⟩

theorem mem_MODELS_provider {env : String → Option String} {cfg : BackendConfig}
    (h : cfg ∈ MODELS env) :
    cfg.provider = "openai" ∨ cfg.provider = "anthropic" ∨
    cfg.provider = "gemini" ∨ cfg.provider = "deepseek" := by
  unfold MODELS at h
  simp only [List.mem_cons] at h
  rcases h with h | h | h | h | h
  · rw [h]; simp
  · rw [h]; simp
  · rw [h]; simp
  · rw [h]; simp
  · simp at h

theorem string_data_append : ∀ (a b : String), (a ++ b).data = a.data ++ b.data
  | ⟨_⟩, ⟨_⟩ => rfl

theorem pyJoin_ne_empty : ∀ (l : List String),
    (∀ s ∈ l, s ≠ "") → l ≠ [] → pyJoin "\n" l ≠ ""
  | [], _, hne => absurd rfl hne
  | [s], h, _ => by
    simpa [pyJoin] using h s (by simp)
  | s :: t :: ts, h, _ => by
    simp only [pyJoin]
    intro hcontra
    have hd := congrArg String.data hcontra
    rw [string_data_append, string_data_append] at hd
    have hnl : ("\n" : String).data = ['\n'] := rfl
    rw [hnl] at hd
    simp [List.append_eq_nil] at hd

theorem joinNonEmptySpec_eq : ∀ (l : List String),
    joinNonEmptySpec l = aggregateContext l
  | [] => rfl
  | s :: rest => by
    have ih := joinNonEmptySpec_eq rest
    by_cases hs : s = ""
    · simp only [joinNonEmptySpec, if_pos hs, ih, aggregateContext, List.filter_cons]
      rw [hs]
      simp
    · have hsd : (decide (s ≠ "")) = true := by simp [hs]
      simp only [joinNonEmptySpec, if_neg hs, aggregateContext, List.filter_cons, hsd,
        if_true]
      cases hrf : rest.filter (fun c => decide (c ≠ "")) with
      | nil =>
        rw [ih]
        simp only [aggregateContext, hrf]
        simp [pyJoin]
      | cons t ts =>
        rw [ih]
        simp only [aggregateContext, hrf]
        have hne : pyJoin "\n" (t :: ts) ≠ "" := by
          apply pyJoin_ne_empty
          · intro x hx
            have hxm : x ∈ rest.filter (fun c => decide (c ≠ "")) := by
              rw [hrf]; exact hx
            simpa using (List.mem_filter.mp hxm).2
          · simp
        rw [if_neg hne]
        simp [pyJoin]

theorem keptDecisions_exn (cfg : BackendConfig) : keptDecisions cfg .exn = [] := rfl

theorem keptDecisions_map_decision (cfg : BackendConfig) :
    ∀ (ds0 : List DecisionObject),
    keptDecisions cfg (.items (ds0.map BackendItem.decision)) =
      ds0.map (stampConfig cfg)
  | [] => rfl
  | d :: rest => by
    simp only [List.map_cons, keptDecisions, List.filterMap_cons]
    have ih := keptDecisions_map_decision cfg rest
    simp only [keptDecisions] at ih
    rw [ih]

theorem registryOrderedOutput_all_exn :
    ∀ (ps : List (BackendConfig × BackendOutcome)),
    (∀ p ∈ ps, p.2 = .exn) → registryOrderedOutput ps = []
  | [], _ => rfl
  | p :: rest, h => by
    have hp := h p (List.mem_cons_self p rest)
    rw [registryOrderedOutput, hp, keptDecisions_exn,
      registryOrderedOutput_all_exn rest (fun q hq => h q (List.mem_cons_of_mem _ hq))]
    rfl

theorem mem_stamped_provider {cfg : BackendConfig} {ds0 : List DecisionObject}
    {d : DecisionObject} (h : d ∈ ds0.map (stampConfig cfg)) :
    d.model_provider = some cfg.provider := by
  obtain ⟨d0, _, hd⟩ := List.mem_map.mp h
  rw [← hd]
  rfl

theorem aggregateContext_all_empty {l : List String} (h : ∀ c ∈ l, c = "") :
    aggregateContext l = "" := by
  have hf : l.filter (fun c => decide (c ≠ "")) = [] :=
    List.filter_eq_nil_iff.mpr (fun c hc => by simp [h c hc])
  rw [aggregateContext, hf]
  rfl

/-! Claim theorems. -/

/-- C7: for every input list of N chunk records of which M lack a non-empty
`source_id` or a non-empty `content`, the chunk-validation step passes
exactly the N−M well-formed chunks onward (in order), emits exactly one
batch-level skip-count diagnostic when M > 0 and none when M = 0 (never M
per-item warnings), and an all-rejected input yields an empty valid set;
the step is a total function, so it never raises. -/
theorem chunkValidator_passes_and_warns (chunks : List RawChunk) :
    (chunkValidate chunks).1 = chunks.filter isValidChunk ∧
    (chunkValidate chunks).1.length =
      chunks.length - (chunks.filter (fun c => !isValidChunk c)).length ∧
    (chunkValidate chunks).2 =
      (if 0 < (chunks.filter (fun c => !isValidChunk c)).length then
        ["Skipped "
          ++ toString (chunks.filter (fun c => !isValidChunk c)).length
          ++ " malformed chunks."]
       else []) ∧
    ((∀ c ∈ chunks, isValidChunk c = false) → (chunkValidate chunks).1 = []) := by
  have hsum := filter_length_add isValidChunk chunks
  refine ⟨rfl, ?_, ?_, ?_⟩
  · show (validChunks chunks).length = _
    unfold validChunks
    omega
  · show skipWarnings chunks = _
    unfold skipWarnings
    by_cases hM : 0 < (chunks.filter (fun c => !isValidChunk c)).length
    · rw [if_pos hM, if_pos (by unfold validChunks; omega)]
      have hMe : chunks.length - (validChunks chunks).length =
          (chunks.filter (fun c => !isValidChunk c)).length := by
        unfold validChunks
        omega
      rw [hMe]
    · rw [if_neg hM, if_neg (by unfold validChunks; omega)]
  · intro hall
    show validChunks chunks = []
    exact List.filter_eq_nil_iff.mpr (fun c hc => by simp [hall c hc])

/-- Witness for C7 on a concrete batch: one malformed chunk among two, and
an all-malformed batch. -/
theorem chunkValidator_passes_and_warns_witness :
    (chunkValidate [badChunk]).1 = [] ∧
    (chunkValidate [demoChunk, badChunk]).2 =
      (if 0 < ([demoChunk, badChunk].filter (fun c => !isValidChunk c)).length then
        ["Skipped "
          ++ toString ([demoChunk, badChunk].filter (fun c => !isValidChunk c)).length
          ++ " malformed chunks."]
       else []) :=
  ⟨(chunkValidator_passes_and_warns [badChunk]).2.2.2 (by decide),
   (chunkValidator_passes_and_warns [demoChunk, badChunk]).2.2.1⟩

/-- C6: constructing a decision with ticker "aapl" succeeds and yields
ticker "AAPL"; constructing with confidence 101 or with signal "PANIC_SELL"
fails construction; and every decision that can be constructed at all has
an upper-cased ticker, an enumerated signal and bounded confidence —
i.e. the constraints are enforced at construction time, not post-hoc. -/
theorem decision_construction_validates :
    mkDecisionObject "BUY" 80 "strong earnings" "aapl" "chunk_1" =
      some ⟨"BUY", 80, "strong earnings", "AAPL", "chunk_1", none, none⟩ ∧
    mkDecisionObject "BUY" 101 "strong earnings" "AAPL" "chunk_1" = none ∧
    mkDecisionObject "PANIC_SELL" 50 "strong earnings" "AAPL" "chunk_1" = none ∧
    (∀ s c r t sid mp mn d, mkDecisionObject s c r t sid mp mn = some d →
      d.ticker = pyUpper t ∧
      (d.signal = "BUY" ∨ d.signal = "SELL" ∨ d.signal = "HOLD") ∧
      0 ≤ d.confidence ∧ d.confidence ≤ 100) := by
  refine ⟨by decide, by decide, by decide, ?_⟩
  intro s c r t sid mp mn d h
  unfold mkDecisionObject at h
  by_cases hcond : (s = "BUY" ∨ s = "SELL" ∨ s = "HOLD") ∧ 0 ≤ c ∧ c ≤ 100
  · rw [if_pos hcond] at h
    obtain ⟨hsig, h0, h100⟩ := hcond
    injection h with h
    rw [← h]
    exact ⟨rfl, hsig, h0, h100⟩
  · rw [if_neg hcond] at h
    exact absurd h (by simp)

/-- Witness for C6: the construction-time guarantees evaluated on the
concrete decision built from ticker "aapl". -/
theorem decision_construction_validates_witness :
    (⟨"BUY", 80, "strong earnings", "AAPL", "chunk_1", none, none⟩ :
        DecisionObject).ticker = pyUpper "aapl" ∧
    ((⟨"BUY", 80, "strong earnings", "AAPL", "chunk_1", none, none⟩ :
        DecisionObject).signal = "BUY" ∨
     (⟨"BUY", 80, "strong earnings", "AAPL", "chunk_1", none, none⟩ :
        DecisionObject).signal = "SELL" ∨
     (⟨"BUY", 80, "strong earnings", "AAPL", "chunk_1", none, none⟩ :
        DecisionObject).signal = "HOLD") ∧
    0 ≤ (⟨"BUY", 80, "strong earnings", "AAPL", "chunk_1", none, none⟩ :
        DecisionObject).confidence ∧
    (⟨"BUY", 80, "strong earnings", "AAPL", "chunk_1", none, none⟩ :
        DecisionObject).confidence ≤ 100 :=
  decision_construction_validates.2.2.2 "BUY" 80 "strong earnings" "aapl"
    "chunk_1" none none
    ⟨"BUY", 80, "strong earnings", "AAPL", "chunk_1", none, none⟩ (by decide)

/-- C10: a non-empty batch in which every chunk is malformed returns the
empty list and short-circuits before both external phases: the transcript
records no context-retrieval call and no backend task. -/
theorem all_malformed_short_circuits (env : String → Option String)
    (chunks : List RawChunk) (retrieve : List String → List String)
    (run : Nat → BackendOutcome)
    (hne : chunks ≠ []) (hall : ∀ c ∈ chunks, isValidChunk c = false) :
    analyzeChunksE env chunks retrieve run =
      .ok ([], { retrievalCalls := [], tasks := [],
                 validationWarnings := skipWarnings chunks }) := by
  have hvalid : validChunks chunks = [] :=
    List.filter_eq_nil_iff.mpr (fun c hc => by simp [hall c hc])
  unfold analyzeChunksE
  rw [if_neg hne, if_pos hvalid]

/-- Witness for C10: one malformed chunk, echoing retrieval, backends that
would succeed; still no retrieval call, no tasks, empty output. -/
theorem all_malformed_short_circuits_witness :
    analyzeChunksE envDefault [badChunk] retrieveId runOneEach =
      .ok ([], { retrievalCalls := [], tasks := [],
                 validationWarnings := skipWarnings [badChunk] }) :=
  all_malformed_short_circuits envDefault [badChunk] retrieveId runOneEach
    (by decide) (by decide)

/-- C1: for every input chunk list and every combination of collaborator
outcomes (including every backend task raising), `analyze_chunks` returns
`Except.ok` — it never raises to its caller — and on total failure (empty
input, no valid chunks, or every backend failing) the returned list is
empty. -/
theorem analyzeChunks_never_raises (env : String → Option String)
    (chunks : List RawChunk) (retrieve : List String → List String)
    (run : Nat → BackendOutcome) :
    (∃ out, analyzeChunksE env chunks retrieve run = .ok out) ∧
    (chunks = [] →
      analyzeChunksE env chunks retrieve run = .ok ([], ⟨[], [], []⟩)) ∧
    (validChunks chunks = [] →
      ∃ t, analyzeChunksE env chunks retrieve run = .ok ([], t)) ∧
    ((∀ i, i < (MODELS env).length → run i = .exn) →
      ∃ t, analyzeChunksE env chunks retrieve run = .ok ([], t)) := by
  by_cases hempty : chunks = []
  · subst hempty
    have h0 : analyzeChunksE env [] retrieve run = .ok ([], ⟨[], [], []⟩) := rfl
    exact ⟨⟨_, h0⟩, fun _ => h0, fun _ => ⟨_, h0⟩, fun _ => ⟨_, h0⟩⟩
  · by_cases hvalid : validChunks chunks = []
    · have h0 : analyzeChunksE env chunks retrieve run =
          .ok ([], ⟨[], [], skipWarnings chunks⟩) := by
        unfold analyzeChunksE
        rw [if_neg hempty, if_pos hvalid]
      exact ⟨⟨_, h0⟩, fun h => absurd h hempty, fun _ => ⟨_, h0⟩, fun _ => ⟨_, h0⟩⟩
    · have h0 := analyzeChunksE_run env chunks retrieve run hvalid
      refine ⟨⟨_, h0⟩, fun h => absurd h hempty, fun h => absurd h hvalid, ?_⟩
      intro hexn
      have hout : registryOrderedOutput ((MODELS env).zip (batchResults env run)) = [] := by
        apply registryOrderedOutput_all_exn
        rintro ⟨a, b⟩ hp
        obtain ⟨-, hbmem⟩ := List.of_mem_zip hp
        unfold batchResults at hbmem
        obtain ⟨i, hi, hbi⟩ := List.mem_map.mp hbmem
        rw [← hbi]
        exact hexn i (List.mem_range.mp hi)
      rw [hout] at h0
      exact ⟨_, h0⟩

/-- Witness for C1: the empty batch returns normally with an empty result,
and a one-chunk batch with every backend raising also returns normally with
an empty result. -/
theorem analyzeChunks_never_raises_witness :
    analyzeChunksE envDefault [] retrieveId runAllExn = .ok ([], ⟨[], [], []⟩) ∧
    (∃ t, analyzeChunksE envDefault [demoChunk] retrieveId runAllExn =
      .ok ([], t)) :=
  ⟨(analyzeChunks_never_raises envDefault [] retrieveId runAllExn).2.1 rfl,
   (analyzeChunks_never_raises envDefault [demoChunk] retrieveId runAllExn).2.2.2
     (fun _ _ => rfl)⟩

/-- C4: every batch with at least one valid chunk issues exactly one
context-retrieval call, and that single call carries every valid chunk's
content (one query per valid chunk, in order); the retrieval does not
depend on the backend registry and is never re-run per backend. -/
theorem single_context_retrieval_call (env : String → Option String)
    (chunks : List RawChunk) (retrieve : List String → List String)
    (run : Nat → BackendOutcome) (hv : validChunks chunks ≠ []) :
    (∃ ds, analyzeChunksE env chunks retrieve run =
      .ok (ds, ⟨[batchQueries chunks], batchTasks env chunks retrieve,
                skipWarnings chunks⟩)) ∧
    [batchQueries chunks].length = 1 ∧
    batchQueries chunks = chunkContents (validChunks chunks) ∧
    (batchQueries chunks).length = (validChunks chunks).length := by
  refine ⟨⟨_, analyzeChunksE_run env chunks retrieve run hv⟩, rfl, rfl, ?_⟩
  exact chunkContents_length_of_valid _ (fun c hc => mem_validChunks hc)

/-- Witness for C4: a three-chunk batch issues one retrieval call with
three queries. -/
theorem single_context_retrieval_call_witness :
    (∃ ds, analyzeChunksE envDefault
        [⟨some "1", some "a"⟩, ⟨some "2", some "b"⟩, ⟨some "3", some "c"⟩]
        retrieveId runAllExn =
      .ok (ds,
        ⟨[batchQueries [⟨some "1", some "a"⟩, ⟨some "2", some "b"⟩, ⟨some "3", some "c"⟩]],
         batchTasks envDefault
           [⟨some "1", some "a"⟩, ⟨some "2", some "b"⟩, ⟨some "3", some "c"⟩]
           retrieveId,
         skipWarnings [⟨some "1", some "a"⟩, ⟨some "2", some "b"⟩, ⟨some "3", some "c"⟩]⟩)) ∧
    [batchQueries [⟨some "1", some "a"⟩, ⟨some "2", some "b"⟩, ⟨some "3", some "c"⟩]].length = 1 ∧
    batchQueries [⟨some "1", some "a"⟩, ⟨some "2", some "b"⟩, ⟨some "3", some "c"⟩] =
      chunkContents (validChunks [⟨some "1", some "a"⟩, ⟨some "2", some "b"⟩, ⟨some "3", some "c"⟩]) ∧
    (batchQueries [⟨some "1", some "a"⟩, ⟨some "2", some "b"⟩, ⟨some "3", some "c"⟩]).length =
      (validChunks [⟨some "1", some "a"⟩, ⟨some "2", some "b"⟩, ⟨some "3", some "c"⟩]).length :=
  single_context_retrieval_call envDefault
    [⟨some "1", some "a"⟩, ⟨some "2", some "b"⟩, ⟨some "3", some "c"⟩]
    retrieveId runAllExn (by decide)

/-- C5: for every batch with at least one valid chunk, exactly one backend
task is created per registered backend (the task list is the registry map,
so its length is the registry length, independent of the chunk count), and
every task carries the full valid chunk list and the same shared aggregated
context string. -/
theorem one_task_per_backend (env : String → Option String)
    (chunks : List RawChunk) (retrieve : List String → List String)
    (run : Nat → BackendOutcome) (hv : validChunks chunks ≠ []) :
    ∃ ds t, analyzeChunksE env chunks retrieve run = .ok (ds, t) ∧
      t.tasks = (MODELS env).map (fun cfg =>
        { provider := cfg.provider, model := cfg.model,
          chunks := validChunks chunks,
          context := batchContext chunks retrieve }) ∧
      t.tasks.length = (MODELS env).length ∧
      (∀ task ∈ t.tasks, task.chunks = validChunks chunks ∧
        task.context = batchContext chunks retrieve) := by
  refine ⟨_, _, analyzeChunksE_run env chunks retrieve run hv, rfl, ?_, ?_⟩
  · show (batchTasks env chunks retrieve).length = _
    unfold batchTasks
    exact List.length_map _ _
  · intro task htask
    have htask2 : task ∈ batchTasks env chunks retrieve := htask
    unfold batchTasks at htask2
    obtain ⟨cfg, -, hcfg⟩ := List.mem_map.mp htask2
    rw [← hcfg]
    exact ⟨rfl, rfl⟩

/-- Witness for C5: two valid chunks, four registered backends, four tasks. -/
theorem one_task_per_backend_witness :
    ∃ ds t, analyzeChunksE envDefault [demoChunk, ⟨some "c2", some "Fed cut"⟩]
        retrieveId runOneEach = .ok (ds, t) ∧
      t.tasks = (MODELS envDefault).map (fun cfg =>
        { provider := cfg.provider, model := cfg.model,
          chunks := validChunks [demoChunk, ⟨some "c2", some "Fed cut"⟩],
          context := batchContext [demoChunk, ⟨some "c2", some "Fed cut"⟩] retrieveId }) ∧
      t.tasks.length = (MODELS envDefault).length ∧
      (∀ task ∈ t.tasks,
        task.chunks = validChunks [demoChunk, ⟨some "c2", some "Fed cut"⟩] ∧
        task.context = batchContext [demoChunk, ⟨some "c2", some "Fed cut"⟩] retrieveId) :=
  one_task_per_backend envDefault [demoChunk, ⟨some "c2", some "Fed cut"⟩]
    retrieveId runOneEach (by decide)

/-- C8: the aggregated context handed to every backend task equals the
newline-join of exactly the non-empty entries of the retrieval result, in
their original order (`joinNonEmptySpec`, the spec-side description, shown
equal to the code's join-of-filtered); when every entry is empty the
aggregated context is the empty string and dispatch still proceeds
normally (one task per registered backend, empty context not an error). -/
theorem context_is_join_of_nonempty (env : String → Option String)
    (chunks : List RawChunk) (retrieve : List String → List String)
    (run : Nat → BackendOutcome) (hv : validChunks chunks ≠ []) :
    ∃ ds t, analyzeChunksE env chunks retrieve run = .ok (ds, t) ∧
      (∀ task ∈ t.tasks,
        task.context = joinNonEmptySpec (retrieve (batchQueries chunks))) ∧
      ((∀ c ∈ retrieve (batchQueries chunks), c = "") →
        (∀ task ∈ t.tasks, task.context = "") ∧
        t.tasks.length = (MODELS env).length) := by
  refine ⟨_, _, analyzeChunksE_run env chunks retrieve run hv, ?_, ?_⟩
  · intro task htask
    have htask2 : task ∈ batchTasks env chunks retrieve := htask
    unfold batchTasks at htask2
    obtain ⟨cfg, -, hcfg⟩ := List.mem_map.mp htask2
    rw [← hcfg, joinNonEmptySpec_eq]
    rfl
  · intro hall
    constructor
    · intro task htask
      have htask2 : task ∈ batchTasks env chunks retrieve := htask
      unfold batchTasks at htask2
      obtain ⟨cfg, -, hcfg⟩ := List.mem_map.mp htask2
      rw [← hcfg]
      show batchContext chunks retrieve = ""
      unfold batchContext
      exact aggregateContext_all_empty hall
    · show (batchTasks env chunks retrieve).length = _
      unfold batchTasks
      exact List.length_map _ _

/-- Witness for C8: a retrieval collaborator returning only empty strings
still yields a full task fan-out with empty shared context. -/
theorem context_is_join_of_nonempty_witness :
    ∃ ds t, analyzeChunksE envDefault [demoChunk] (fun qs => qs.map (fun _ => ""))
        runOneEach = .ok (ds, t) ∧
      (∀ task ∈ t.tasks,
        task.context =
          joinNonEmptySpec ((fun qs => qs.map (fun _ => "")) (batchQueries [demoChunk]))) ∧
      ((∀ c ∈ (fun qs => qs.map (fun _ => "")) (batchQueries [demoChunk]), c = "") →
        (∀ task ∈ t.tasks, task.context = "") ∧
        t.tasks.length = (MODELS envDefault).length) :=
  context_is_join_of_nonempty envDefault [demoChunk]
    (fun qs => qs.map (fun _ => "")) runOneEach (by decide)

/-- C9: the output list is the registry-ordered concatenation of each
backend's kept decisions (`registryOrderedOutput`, the spec-side
description): all decisions of the first registered backend precede those
of the second, and so on, for every combination of per-backend successes
and failures; within one backend the item order is preserved exactly as
returned (a pure-decision list outcome contributes its items in order,
stamped; a failed outcome contributes nothing). -/
theorem output_registry_ordered (env : String → Option String)
    (chunks : List RawChunk) (retrieve : List String → List String)
    (run : Nat → BackendOutcome) (hv : validChunks chunks ≠ []) :
    (∃ t, analyzeChunksE env chunks retrieve run =
      .ok (registryOrderedOutput ((MODELS env).zip (batchResults env run)), t)) ∧
    (∀ cfg out rest, registryOrderedOutput ((cfg, out) :: rest) =
      keptDecisions cfg out ++ registryOrderedOutput rest) ∧
    (∀ (cfg : BackendConfig) (ds0 : List DecisionObject),
      keptDecisions cfg (.items (ds0.map BackendItem.decision)) =
      ds0.map (stampConfig cfg)) ∧
    (∀ cfg, keptDecisions cfg .exn = []) := by
  exact ⟨⟨_, analyzeChunksE_run env chunks retrieve run hv⟩,
    fun _ _ _ => rfl, fun cfg ds0 => keptDecisions_map_decision cfg ds0,
    fun _ => rfl⟩

/-- Witness for C9 at a concrete run. -/
theorem output_registry_ordered_witness :
    (∃ t, analyzeChunksE envDefault [demoChunk] retrieveId runOneEach =
      .ok (registryOrderedOutput
        ((MODELS envDefault).zip (batchResults envDefault runOneEach)), t)) ∧
    (∀ cfg out rest, registryOrderedOutput ((cfg, out) :: rest) =
      keptDecisions cfg out ++ registryOrderedOutput rest) ∧
    (∀ (cfg : BackendConfig) (ds0 : List DecisionObject),
      keptDecisions cfg (.items (ds0.map BackendItem.decision)) =
      ds0.map (stampConfig cfg)) ∧
    (∀ cfg, keptDecisions cfg .exn = []) :=
  output_registry_ordered envDefault [demoChunk] retrieveId runOneEach (by decide)

/-- C2: under the runtime facts that every registry model id is non-empty
(default environment or any non-degenerate override) and that every
`DecisionObject` a backend returns was built by pydantic construction,
every decision in the returned list has an enumerated signal, confidence in
[0, 100], a ticker equal to the upper-cased form of the string it was
constructed from, and attribution fields equal to a registry entry's
non-empty provider and model — stamped by the reducer from the registry,
never taken from the backend response (the input decisions' own attribution
fields are arbitrary and are overwritten). -/
theorem every_decision_validated_and_attributed (env : String → Option String)
    (chunks : List RawChunk) (retrieve : List String → List String)
    (run : Nat → BackendOutcome)
    (hm : ∀ cfg ∈ MODELS env, cfg.model ≠ "")
    (hcon : ∀ i xs d, run i = .items xs → BackendItem.decision d ∈ xs →
      constructedDecision d)
    (ds : List DecisionObject) (t : Transcript)
    (hok : analyzeChunksE env chunks retrieve run = .ok (ds, t)) :
    ∀ d ∈ ds,
      (d.signal = "BUY" ∨ d.signal = "SELL" ∨ d.signal = "HOLD") ∧
      0 ≤ d.confidence ∧ d.confidence ≤ 100 ∧
      (∃ raw, d.ticker = pyUpper raw) ∧
      (∃ cfg, cfg ∈ MODELS env ∧ d.model_provider = some cfg.provider ∧
        d.model_name = some cfg.model ∧ cfg.provider ≠ "" ∧ cfg.model ≠ "") := by
  intro d hd
  have hds : ds = [] ∨
      ds = registryOrderedOutput ((MODELS env).zip (batchResults env run)) := by
    by_cases hempty : chunks = []
    · left
      subst hempty
      have h0 : analyzeChunksE env [] retrieve run = .ok ([], ⟨[], [], []⟩) := rfl
      rw [h0] at hok
      injection hok with h1
      exact (congrArg Prod.fst h1).symm
    · by_cases hvalid : validChunks chunks = []
      · left
        have h0 : analyzeChunksE env chunks retrieve run =
            .ok ([], ⟨[], [], skipWarnings chunks⟩) := by
          unfold analyzeChunksE
          rw [if_neg hempty, if_pos hvalid]
        rw [h0] at hok
        injection hok with h1
        exact (congrArg Prod.fst h1).symm
      · right
        rw [analyzeChunksE_run env chunks retrieve run hvalid] at hok
        injection hok with h1
        exact (congrArg Prod.fst h1).symm
  rcases hds with hds | hds
  · rw [hds] at hd
    simp at hd
  · rw [hds] at hd
    obtain ⟨⟨a, b⟩, hp, hdp⟩ := mem_registryOrderedOutput.mp hd
    obtain ⟨xs, d0, hout, hd0mem, hdstamp⟩ := mem_keptDecisions hdp
    obtain ⟨hamem, hbmem⟩ := List.of_mem_zip hp
    unfold batchResults at hbmem
    obtain ⟨i, -, hbi⟩ := List.mem_map.mp hbmem
    have hrun_items : run i = .items xs := by
      rw [hbi]
      exact hout
    obtain ⟨s, c, r, tk, sid, mp, mn, hmk⟩ := hcon i xs d0 hrun_items hd0mem
    unfold mkDecisionObject at hmk
    by_cases hcond : (s = "BUY" ∨ s = "SELL" ∨ s = "HOLD") ∧ 0 ≤ c ∧ c ≤ 100
    · rw [if_pos hcond] at hmk
      obtain ⟨hsig, h0, h100⟩ := hcond
      injection hmk with hmk
      rw [hdstamp, ← hmk]
      refine ⟨hsig, h0, h100, ⟨tk, rfl⟩, ⟨a, hamem, rfl, rfl, ?_, hm a hamem⟩⟩
      rcases mem_MODELS_provider hamem with h | h | h | h <;> rw [h] <;> decide
    · rw [if_neg hcond] at hmk
      exact absurd hmk (by simp)

/-- Witness for C2: the default environment, one valid chunk, and every
backend returning the constructed demo decision; the conclusion is
evaluated on the four-decision output. -/
theorem every_decision_validated_and_attributed_witness :
    ((stampConfig (cfgAt envDefault 0) demoDecision).signal = "BUY" ∨
     (stampConfig (cfgAt envDefault 0) demoDecision).signal = "SELL" ∨
     (stampConfig (cfgAt envDefault 0) demoDecision).signal = "HOLD") ∧
    0 ≤ (stampConfig (cfgAt envDefault 0) demoDecision).confidence ∧
    (stampConfig (cfgAt envDefault 0) demoDecision).confidence ≤ 100 ∧
    (∃ raw, (stampConfig (cfgAt envDefault 0) demoDecision).ticker = pyUpper raw) ∧
    (∃ cfg, cfg ∈ MODELS envDefault ∧
      (stampConfig (cfgAt envDefault 0) demoDecision).model_provider =
        some cfg.provider ∧
      (stampConfig (cfgAt envDefault 0) demoDecision).model_name =
        some cfg.model ∧ cfg.provider ≠ "" ∧ cfg.model ≠ "") :=
  every_decision_validated_and_attributed envDefault [demoChunk] retrieveId
    runOneEach (by decide)
    (fun i xs d h1 h2 => by
      injection h1 with h1
      rw [← h1] at h2
      simp only [List.mem_singleton] at h2
      injection h2 with h2
      subst h2
      exact ⟨"BUY", 90, "Success", "AAPL", "c1", none, none, by decide⟩)
    [stampConfig (cfgAt envDefault 0) demoDecision,
     stampConfig (cfgAt envDefault 1) demoDecision,
     stampConfig (cfgAt envDefault 2) demoDecision,
     stampConfig (cfgAt envDefault 3) demoDecision]
    ⟨[["Apple up"]],
     (MODELS envDefault).map (fun cfg =>
       { provider := cfg.provider, model := cfg.model,
         chunks := [demoChunk], context := "Apple up" }),
     []⟩
    (by rfl)
    (stampConfig (cfgAt envDefault 0) demoDecision)
    (List.mem_cons_self _ _)

/-- C3: if exactly one backend's task fails (index f in the registry) and
every other backend returns a list of decision items K i, the output is
exactly the concatenation, in registry order, of the other backends'
stamped decisions — so its length is the sum of the k_i, no returned
decision is attributed to the failed backend's provider, and the failure
neither removes nor alters another backend's decisions nor aborts the
batch. -/
theorem one_backend_failure_isolated (env : String → Option String)
    (chunks : List RawChunk) (retrieve : List String → List String)
    (run : Nat → BackendOutcome) (f : Nat) (K : Nat → List DecisionObject)
    (hv : validChunks chunks ≠ [])
    (hf : f < (MODELS env).length)
    (hrunf : run f = .exn)
    (hrun : ∀ i, i < (MODELS env).length → i ≠ f →
      run i = .items ((K i).map BackendItem.decision)) :
    ∃ ds t, analyzeChunksE env chunks retrieve run = .ok (ds, t) ∧
      ds = (if 0 = f then [] else (K 0).map (stampConfig (cfgAt env 0))) ++
           ((if 1 = f then [] else (K 1).map (stampConfig (cfgAt env 1))) ++
            ((if 2 = f then [] else (K 2).map (stampConfig (cfgAt env 2))) ++
             (if 3 = f then [] else (K 3).map (stampConfig (cfgAt env 3))))) ∧
      ds.length = (if 0 = f then 0 else (K 0).length) +
           ((if 1 = f then 0 else (K 1).length) +
            ((if 2 = f then 0 else (K 2).length) +
             (if 3 = f then 0 else (K 3).length))) ∧
      (∀ d ∈ ds, d.model_provider ≠ some ((cfgAt env f).provider)) := by
  have hlen4 : (MODELS env).length = 4 := rfl
  rw [hlen4] at hf
  simp only [hlen4] at hrun
  have hzip : registryOrderedOutput ((MODELS env).zip (batchResults env run)) =
      keptDecisions (cfgAt env 0) (run 0) ++
      (keptDecisions (cfgAt env 1) (run 1) ++
       (keptDecisions (cfgAt env 2) (run 2) ++
        (keptDecisions (cfgAt env 3) (run 3) ++ []))) := rfl
  have hds : registryOrderedOutput ((MODELS env).zip (batchResults env run)) =
      (if 0 = f then [] else (K 0).map (stampConfig (cfgAt env 0))) ++
      ((if 1 = f then [] else (K 1).map (stampConfig (cfgAt env 1))) ++
       ((if 2 = f then [] else (K 2).map (stampConfig (cfgAt env 2))) ++
        (if 3 = f then [] else (K 3).map (stampConfig (cfgAt env 3))))) := by
    rw [hzip]
    interval_cases f
    · rw [hrunf, hrun 1 (by omega) (by omega), hrun 2 (by omega) (by omega),
        hrun 3 (by omega) (by omega), keptDecisions_exn,
        keptDecisions_map_decision, keptDecisions_map_decision,
        keptDecisions_map_decision]
      simp
    · rw [hrunf, hrun 0 (by omega) (by omega), hrun 2 (by omega) (by omega),
        hrun 3 (by omega) (by omega), keptDecisions_exn,
        keptDecisions_map_decision, keptDecisions_map_decision,
        keptDecisions_map_decision]
      simp
    · rw [hrunf, hrun 0 (by omega) (by omega), hrun 1 (by omega) (by omega),
        hrun 3 (by omega) (by omega), keptDecisions_exn,
        keptDecisions_map_decision, keptDecisions_map_decision,
        keptDecisions_map_decision]
      simp
    · rw [hrunf, hrun 0 (by omega) (by omega), hrun 1 (by omega) (by omega),
        hrun 2 (by omega) (by omega), keptDecisions_exn,
        keptDecisions_map_decision, keptDecisions_map_decision,
        keptDecisions_map_decision]
      simp
  refine ⟨_, _, analyzeChunksE_run env chunks retrieve run hv, hds, ?_, ?_⟩
  · rw [hds]
    interval_cases f <;> simp
  · intro d hd
    rw [hds] at hd
    interval_cases f
    · simp at hd
      rcases hd with ⟨d0, -, rfl⟩ | ⟨d0, -, rfl⟩ | ⟨d0, -, rfl⟩
      · show (some "anthropic" : Option String) ≠ some "openai"
        decide
      · show (some "gemini" : Option String) ≠ some "openai"
        decide
      · show (some "deepseek" : Option String) ≠ some "openai"
        decide
    · simp at hd
      rcases hd with ⟨d0, -, rfl⟩ | ⟨d0, -, rfl⟩ | ⟨d0, -, rfl⟩
      · show (some "openai" : Option String) ≠ some "anthropic"
        decide
      · show (some "gemini" : Option String) ≠ some "anthropic"
        decide
      · show (some "deepseek" : Option String) ≠ some "anthropic"
        decide
    · simp at hd
      rcases hd with ⟨d0, -, rfl⟩ | ⟨d0, -, rfl⟩ | ⟨d0, -, rfl⟩
      · show (some "openai" : Option String) ≠ some "gemini"
        decide
      · show (some "anthropic" : Option String) ≠ some "gemini"
        decide
      · show (some "deepseek" : Option String) ≠ some "gemini"
        decide
    · simp at hd
      rcases hd with ⟨d0, -, rfl⟩ | ⟨d0, -, rfl⟩ | ⟨d0, -, rfl⟩
      · show (some "openai" : Option String) ≠ some "deepseek"
        decide
      · show (some "anthropic" : Option String) ≠ some "deepseek"
        decide
      · show (some "gemini" : Option String) ≠ some "deepseek"
        decide

/-- Witness for C3: the spec's Scenario A — the first backend ("openai")
raises, the other three each return one decision. -/
theorem one_backend_failure_isolated_witness :
    ∃ ds t, analyzeChunksE envDefault [demoChunk] retrieveId runFirstFails =
      .ok (ds, t) ∧
      ds = (if 0 = 0 then []
             else ((fun _ => [demoDecision]) 0).map (stampConfig (cfgAt envDefault 0))) ++
           ((if 1 = 0 then []
             else ((fun _ => [demoDecision]) 1).map (stampConfig (cfgAt envDefault 1))) ++
            ((if 2 = 0 then []
             else ((fun _ => [demoDecision]) 2).map (stampConfig (cfgAt envDefault 2))) ++
             (if 3 = 0 then []
             else ((fun _ => [demoDecision]) 3).map (stampConfig (cfgAt envDefault 3))))) ∧
      ds.length = (if 0 = 0 then 0 else ((fun _ => [demoDecision]) 0).length) +
           ((if 1 = 0 then 0 else ((fun _ => [demoDecision]) 1).length) +
            ((if 2 = 0 then 0 else ((fun _ => [demoDecision]) 2).length) +
             (if 3 = 0 then 0 else ((fun _ => [demoDecision]) 3).length))) ∧
      (∀ d ∈ ds, d.model_provider ≠ some ((cfgAt envDefault 0).provider)) :=
  one_backend_failure_isolated envDefault [demoChunk] retrieveId runFirstFails
    0 (fun _ => [demoDecision]) (by decide) (by decide) rfl
    (fun i hi hne => by
      unfold runFirstFails
      rw [if_neg hne]
      rfl)
